import Mathlib

/-!
Shallow embedding of the CHIP-8 interpreter core (`src/chip8.rs`).

Modelling conventions:
* Rust `u8` / `u16` values are `Nat`s; arithmetic that the source performs
  with compiler-inserted wrapping (release profile) is written with an
  explicit `% 256` / `% 65536`.
* Fixed-size Rust arrays (`memory`, `v`, `stack`, `display`, `keypad`) are
  total functions `Nat → _`; every array access whose index can fall outside
  the array's length is guarded, and a handler in which such an access would
  panic returns `none` (a Rust index-out-of-bounds panic aborts the
  interpreter, so the post-panic state is unobservable).
* The random byte drawn by `op_cxkk` (`rand::rng().random()`) is passed in
  as an explicit argument `r` to `execute_opcode` and `cycle`.
-/

/-- Font table `FONTSET`: the eighty bytes of `const FONTSET: [u8; 80]`. -/
def fontsetList : List Nat :=
  [0xF0, 0x90, 0x90, 0x90, 0xF0,
   0x20, 0x60, 0x20, 0x20, 0x70,
   0xF0, 0x10, 0xF0, 0x80, 0xF0,
   0xF0, 0x10, 0xF0, 0x10, 0xF0,
   0x90, 0x90, 0xF0, 0x10, 0x10,
   0xF0, 0x80, 0xF0, 0x10, 0xF0,
   0xF0, 0x80, 0xF0, 0x90, 0xF0,
   0xF0, 0x10, 0x20, 0x40, 0x40,
   0xF0, 0x90, 0xF0, 0x90, 0xF0,
   0xF0, 0x90, 0xF0, 0x10, 0xF0,
   0xF0, 0x90, 0xF0, 0x90, 0x90,
   0xE0, 0x90, 0xE0, 0x90, 0xE0,
   0xF0, 0x80, 0x80, 0x80, 0xF0,
   0xE0, 0x90, 0x90, 0x90, 0xE0,
   0xF0, 0x80, 0xF0, 0x80, 0xF0,
   0xF0, 0x80, 0xF0, 0x80, 0x80]

/-- Byte `a` of the font table (0 outside the first eighty bytes). -/
def FONTSET (a : Nat) : Nat := fontsetList.getD a 0

/-- The machine state, field for field the Rust `struct Chip8`. -/
structure Chip8 where
  memory : Nat → Nat
  v : Nat → Nat
  i : Nat
  pc : Nat
  stack : Nat → Nat
  sp : Nat
  display : Nat → Bool
  delay_timer : Nat
  sound_timer : Nat
  keypad : Nat → Bool

/-- `load_fontset`: copy the eighty font bytes to the front of memory. -/
def Chip8.load_fontset (s : Chip8) : Chip8 :=
  { s with memory := fun a => if a < 80 then FONTSET a else s.memory a }

/-- `Chip8::new()`: zeroed state with `pc = 0x200` and the font installed. -/
def Chip8.new : Chip8 :=
  Chip8.load_fontset
    { memory := fun _ => 0
      v := fun _ => 0
      i := 0
      pc := 0x200
      stack := fun _ => 0
      sp := 0
      display := fun _ => false
      delay_timer := 0
      sound_timer := 0
      keypad := fun _ => false }

/-- Program load `load_rom`: `file.read(&mut self.memory[0x200..])` reads at
most `4096 - 0x200 = 3584` bytes of the file into the program region and
returns `Ok(())`; an oversized file is silently cut at the end of memory.
`rom` stands for the file's bytes; `none` would model an IO failure, which
the byte-level behaviour modelled here never produces. -/
def Chip8.load_rom (s : Chip8) (rom : List Nat) : Option Chip8 :=
  some { s with
          memory := fun a =>
            if 0x200 ≤ a ∧ a < 0x200 + min rom.length 3584 then
              rom.getD (a - 0x200) 0
            else s.memory a }

/-- Instruction fetch `fetch_opcode`: big-endian 16-bit word at `pc`,`pc+1`;
`none` models the index-out-of-bounds panic when `pc + 1 ≥ 4096`. -/
def Chip8.fetch_opcode (s : Chip8) : Option Nat :=
  if s.pc + 1 < 4096 then
    some (s.memory s.pc * 256 + s.memory (s.pc + 1))
  else none

/-- Timer tick `update_timers`, exactly as written in the source: the second
branch tests `sound_timer` but decrements `delay_timer` (which in that branch
may wrap below zero in a release build, hence the `+ 255 % 256` form). -/
def Chip8.update_timers (s : Chip8) : Chip8 :=
  let s1 := if s.delay_timer > 0 then { s with delay_timer := s.delay_timer - 1 } else s
  if s1.sound_timer > 0 then { s1 with delay_timer := (s1.delay_timer + 255) % 256 } else s1

/-- Opcode `00E0`: clear the display, `pc += 2`. -/
def Chip8.op_00e0 (s : Chip8) : Chip8 :=
  { s with display := fun _ => false, pc := (s.pc + 2) % 65536 }

/-- Opcode `00EE`: `sp -= 1; pc = stack[sp] + 2`. With `sp = 0` the
decrement wraps to 255 (release profile) and `stack[255]` panics; with
`sp > 16` the indexing panics as well — both are `none`. -/
def Chip8.op_00ee (s : Chip8) : Option Chip8 :=
  let sp := (s.sp + 255) % 256
  if sp < 16 then
    some { s with sp := sp, pc := (s.stack sp + 2) % 65536 }
  else none

/-- Opcode `1nnn`: jump, `pc = nnn`. -/
def Chip8.op_1nnn (s : Chip8) (opcode : Nat) : Chip8 :=
  { s with pc := opcode % 4096 }

/-- Opcode `2nnn`: `stack[sp] = pc; sp += 1; pc = nnn`; `stack[sp]` panics
when `sp ≥ 16`. -/
def Chip8.op_2nnn (s : Chip8) (opcode : Nat) : Option Chip8 :=
  if s.sp < 16 then
    some { s with
            stack := fun j => if j = s.sp then s.pc else s.stack j,
            sp := (s.sp + 1) % 256,
            pc := opcode % 4096 }
  else none

/-- Opcode `3xkk`: skip the next instruction if `Vx == kk`. -/
def Chip8.op_3xkk (s : Chip8) (opcode : Nat) : Chip8 :=
  let x := opcode / 256 % 16
  let kk := opcode % 256
  if s.v x = kk then { s with pc := (s.pc + 4) % 65536 }
  else { s with pc := (s.pc + 2) % 65536 }

/-- Opcode `4xkk`: skip the next instruction if `Vx != kk`. -/
def Chip8.op_4xkk (s : Chip8) (opcode : Nat) : Chip8 :=
  let x := opcode / 256 % 16
  let kk := opcode % 256
  if s.v x ≠ kk then { s with pc := (s.pc + 4) % 65536 }
  else { s with pc := (s.pc + 2) % 65536 }

/-- Opcode `5xy0`: skip the next instruction if `Vx == Vy`. -/
def Chip8.op_5xy0 (s : Chip8) (opcode : Nat) : Chip8 :=
  let x := opcode / 256 % 16
  let y := opcode / 16 % 16
  if s.v x = s.v y then { s with pc := (s.pc + 4) % 65536 }
  else { s with pc := (s.pc + 2) % 65536 }

/-- Opcode `6xkk`: `Vx = kk`. -/
def Chip8.op_6xkk (s : Chip8) (opcode : Nat) : Chip8 :=
  let x := opcode / 256 % 16
  let kk := opcode % 256
  { s with v := fun j => if j = x then kk else s.v j, pc := (s.pc + 2) % 65536 }

/-- Opcode `7xkk`: `Vx += kk` (wrapping addition in a release build). -/
def Chip8.op_7xkk (s : Chip8) (opcode : Nat) : Chip8 :=
  let x := opcode / 256 % 16
  let kk := opcode % 256
  { s with v := fun j => if j = x then (s.v x + kk) % 256 else s.v j,
           pc := (s.pc + 2) % 65536 }

/-- Opcode `8xy0`: `Vx = Vy`. -/
def Chip8.op_8xy0 (s : Chip8) (opcode : Nat) : Chip8 :=
  let x := opcode / 256 % 16
  let y := opcode / 16 % 16
  { s with v := fun j => if j = x then s.v y else s.v j, pc := (s.pc + 2) % 65536 }

/-- Opcode `8xy1`: `Vx |= Vy`. -/
def Chip8.op_8xy1 (s : Chip8) (opcode : Nat) : Chip8 :=
  let x := opcode / 256 % 16
  let y := opcode / 16 % 16
  { s with v := fun j => if j = x then s.v x ||| s.v y else s.v j,
           pc := (s.pc + 2) % 65536 }

/-- Opcode `8xy2`: `Vx &= Vy`. -/
def Chip8.op_8xy2 (s : Chip8) (opcode : Nat) : Chip8 :=
  let x := opcode / 256 % 16
  let y := opcode / 16 % 16
  { s with v := fun j => if j = x then s.v x &&& s.v y else s.v j,
           pc := (s.pc + 2) % 65536 }

/-- Opcode `8xy3`: `Vx ^= Vy`. -/
def Chip8.op_8xy3 (s : Chip8) (opcode : Nat) : Chip8 :=
  let x := opcode / 256 % 16
  let y := opcode / 16 % 16
  { s with v := fun j => if j = x then s.v x ^^^ s.v y else s.v j,
           pc := (s.pc + 2) % 65536 }

/-- Opcode `8xy4`: `Vx = Vx + Vy` with `VF` the carry (overflowing_add). -/
def Chip8.op_8xy4 (s : Chip8) (opcode : Nat) : Chip8 :=
  let x := opcode / 256 % 16
  let y := opcode / 16 % 16
  let sum := (s.v x + s.v y) % 256
  let carry := if 256 ≤ s.v x + s.v y then 1 else 0
  { s with v := fun j => if j = 0xF then carry else if j = x then sum else s.v j,
           pc := (s.pc + 2) % 65536 }

/-- Opcode `8xy5`: `Vx = Vx - Vy`, `VF = 0` on borrow else 1
(overflowing_sub). -/
def Chip8.op_8xy5 (s : Chip8) (opcode : Nat) : Chip8 :=
  let x := opcode / 256 % 16
  let y := opcode / 16 % 16
  let result := (s.v x + 256 - s.v y % 256) % 256
  let flag := if s.v x < s.v y then 0 else 1
  { s with v := fun j => if j = 0xF then flag else if j = x then result else s.v j,
           pc := (s.pc + 2) % 65536 }

/-- Opcode `8xy6`: `VF = Vx & 1; Vx >>= 1`. The source stores the flag
before shifting, so with `x = 0xF` the shift reads the freshly written
flag. -/
def Chip8.op_8xy6 (s : Chip8) (opcode : Nat) : Chip8 :=
  let x := opcode / 256 % 16
  let v1 := fun j => if j = 0xF then s.v x % 2 else s.v j
  { s with v := fun j => if j = x then v1 x / 2 else v1 j,
           pc := (s.pc + 2) % 65536 }

/-- Opcode `8xy7`: `Vx = Vy - Vx`, `VF = 0` on borrow else 1. -/
def Chip8.op_8xy7 (s : Chip8) (opcode : Nat) : Chip8 :=
  let x := opcode / 256 % 16
  let y := opcode / 16 % 16
  let result := (s.v y + 256 - s.v x % 256) % 256
  let flag := if s.v y < s.v x then 0 else 1
  { s with v := fun j => if j = 0xF then flag else if j = x then result else s.v j,
           pc := (s.pc + 2) % 65536 }

/-- Opcode `8xyE`: `VF = (Vx & 0x80) >> 7; Vx <<= 1` (wrapping in release);
as in `8xy6` the flag store happens first. -/
def Chip8.op_8xye (s : Chip8) (opcode : Nat) : Chip8 :=
  let x := opcode / 256 % 16
  let v1 := fun j => if j = 0xF then s.v x / 128 % 2 else s.v j
  { s with v := fun j => if j = x then v1 x * 2 % 256 else v1 j,
           pc := (s.pc + 2) % 65536 }

/-- Opcode `9xy0`: skip the next instruction if `Vx != Vy`. -/
def Chip8.op_9xy0 (s : Chip8) (opcode : Nat) : Chip8 :=
  let x := opcode / 256 % 16
  let y := opcode / 16 % 16
  if s.v x ≠ s.v y then { s with pc := (s.pc + 4) % 65536 }
  else { s with pc := (s.pc + 2) % 65536 }

/-- Opcode `Annn`: `I = nnn`. -/
def Chip8.op_annn (s : Chip8) (opcode : Nat) : Chip8 :=
  { s with i := opcode % 4096, pc := (s.pc + 2) % 65536 }

/-- Opcode `Bnnn`: `pc = nnn + V0`. -/
def Chip8.op_bnnn (s : Chip8) (opcode : Nat) : Chip8 :=
  { s with pc := (opcode % 4096 + s.v 0) % 65536 }

/-- Opcode `Cxkk`: `Vx = r & kk` for the sampled random byte `r`. -/
def Chip8.op_cxkk (s : Chip8) (opcode r : Nat) : Chip8 :=
  let x := opcode / 256 % 16
  let kk := opcode % 256
  { s with v := fun j => if j = x then (r % 256) &&& kk else s.v j,
           pc := (s.pc + 2) % 65536 }

/-- Iteration space of the nested draw loops of `op_dxyn`:
`for row in 0..height { for col in 0..8 { ... } }`. -/
def drawPairs (height : Nat) : List (Nat × Nat) :=
  (List.range height).flatMap (fun row => (List.range 8).map (fun col => (row, col)))

/-- Does sprite row `row` of the sprite at `mem[i..]` have bit `col` set
(`sprite & (0x80 >> col) != 0`)? -/
def spriteBit (mem : Nat → Nat) (i : Nat) (row col : Nat) : Bool :=
  mem (i + row) &&& (0x80 >>> col) != 0

/-- Framebuffer index targeted by sprite bit `(row, col)`:
`(vx + col + (vy + row) * 64) % (32 * 64)`. -/
def pixelIndex (vx vy : Nat) (row col : Nat) : Nat :=
  (vx + col + (vy + row) * 64) % (32 * 64)

/-- One iteration of the draw loop body, threading the framebuffer and the
collision flag `v[0xF]`: a set sprite bit records a collision if its target
cell is on and then XOR-toggles the cell. -/
def drawStep (mem : Nat → Nat) (i vx vy : Nat)
    (acc : (Nat → Bool) × Nat) (rc : Nat × Nat) : (Nat → Bool) × Nat :=
  if spriteBit mem i rc.1 rc.2 then
    let p := pixelIndex vx vy rc.1 rc.2
    (fun q => if q = p then !acc.1 q else acc.1 q,
     if acc.1 p then 1 else acc.2)
  else acc

/-- Framebuffer indices toggled by the draw loop when it runs over an
arbitrary list of `(row, col)` iterations, in loop order. -/
def flipsOver (mem : Nat → Nat) (i vx vy : Nat) (L : List (Nat × Nat)) : List Nat :=
  (L.filter (fun rc => spriteBit mem i rc.1 rc.2)).map
    (fun rc => pixelIndex vx vy rc.1 rc.2)

/-- Framebuffer indices toggled by one `height`-row draw, in loop order. -/
def flipTargets (mem : Nat → Nat) (i vx vy height : Nat) : List Nat :=
  flipsOver mem i vx vy (drawPairs height)

/-- Opcode `Dxyn`: draw the `height`-row sprite at `memory[I..]` at
`(Vx, Vy)`, XOR-toggling cells and reporting collisions in `VF` (which the
source zeroes before the loops). Reading `memory[I + row]` panics when
`I + row ≥ 4096`, hence `none` whenever any iterated row is out of range.
Note the source never advances `pc` in this handler. -/
def Chip8.op_dxyn (s : Chip8) (opcode : Nat) : Option Chip8 :=
  let x := opcode / 256 % 16
  let y := opcode / 16 % 16
  let height := opcode % 16
  let vx := s.v x
  let vy := s.v y
  if height = 0 ∨ s.i + height ≤ 4096 then
    let res := (drawPairs height).foldl (drawStep s.memory s.i vx vy) (s.display, 0)
    some { s with display := res.1,
                  v := fun j => if j = 0xF then res.2 else s.v j }
  else none

/-- Opcode `Ex9E`: skip the next instruction if `keypad[Vx]` is pressed;
`keypad[key]` panics when `Vx ≥ 16`. -/
def Chip8.op_ex9e (s : Chip8) (opcode : Nat) : Option Chip8 :=
  let x := opcode / 256 % 16
  let key := s.v x
  if key < 16 then
    if s.keypad key then some { s with pc := (s.pc + 4) % 65536 }
    else some { s with pc := (s.pc + 2) % 65536 }
  else none

/-- Opcode `ExA1`: skip the next instruction if `keypad[Vx]` is not pressed;
`keypad[key]` panics when `Vx ≥ 16`. -/
def Chip8.op_exa1 (s : Chip8) (opcode : Nat) : Option Chip8 :=
  let x := opcode / 256 % 16
  let key := s.v x
  if key < 16 then
    if !s.keypad key then some { s with pc := (s.pc + 4) % 65536 }
    else some { s with pc := (s.pc + 2) % 65536 }
  else none

/-- Opcode `Fx07`: `Vx = delay_timer`. -/
def Chip8.op_fx07 (s : Chip8) (opcode : Nat) : Chip8 :=
  let x := opcode / 256 % 16
  { s with v := fun j => if j = x then s.delay_timer else s.v j,
           pc := (s.pc + 2) % 65536 }

/-- Opcode `Fx0A`: `keypad.iter().position(|&k| k)`; on a hit store the
lowest pressed key index in `Vx` and `pc += 2`, otherwise `pc -= 2`
(wrapping at 0 in a release build). -/
def Chip8.op_fx0a (s : Chip8) (opcode : Nat) : Chip8 :=
  let x := opcode / 256 % 16
  match (List.range 16).find? (fun k => s.keypad k) with
  | some key =>
      { s with v := fun j => if j = x then key else s.v j,
               pc := (s.pc + 2) % 65536 }
  | none => { s with pc := (s.pc + 65534) % 65536 }

/-- Opcode `Fx15`: `delay_timer = Vx`. -/
def Chip8.op_fx15 (s : Chip8) (opcode : Nat) : Chip8 :=
  let x := opcode / 256 % 16
  { s with delay_timer := s.v x, pc := (s.pc + 2) % 65536 }

/-- Opcode `Fx18`: `sound_timer = Vx`. -/
def Chip8.op_fx18 (s : Chip8) (opcode : Nat) : Chip8 :=
  let x := opcode / 256 % 16
  { s with sound_timer := s.v x, pc := (s.pc + 2) % 65536 }

/-- Opcode `Fx1E`: `I += Vx` (wrapping 16-bit in release). -/
def Chip8.op_fx1e (s : Chip8) (opcode : Nat) : Chip8 :=
  let x := opcode / 256 % 16
  { s with i := (s.i + s.v x) % 65536, pc := (s.pc + 2) % 65536 }

/-- Opcode `Fx29`, exactly as written in the source: `self.i += self.v[x]
as u16 * 5` — an ADDITION to `I` of five times the full register value
(no `& 0x0F` masking), not an assignment. -/
def Chip8.op_fx29 (s : Chip8) (opcode : Nat) : Chip8 :=
  let x := opcode / 256 % 16
  { s with i := (s.i + s.v x * 5) % 65536, pc := (s.pc + 2) % 65536 }

/-- Opcode `Fx33`: BCD of `Vx` at `memory[I]`, `memory[I+1]`, `memory[I+2]`
(the `+1`/`+2` are 16-bit additions, so they wrap at 65536); any of the
three stores panics when its index is ≥ 4096, hence `none`. -/
def Chip8.op_fx33 (s : Chip8) (opcode : Nat) : Option Chip8 :=
  let x := opcode / 256 % 16
  let vx := s.v x
  let a0 := s.i
  let a1 := (s.i + 1) % 65536
  let a2 := (s.i + 2) % 65536
  if a0 < 4096 ∧ a1 < 4096 ∧ a2 < 4096 then
    some { s with
            memory := fun a =>
              if a = a2 then vx % 10
              else if a = a1 then vx % 100 / 10
              else if a = a0 then vx / 100
              else s.memory a,
            pc := (s.pc + 2) % 65536 }
  else none

/-- Opcode `Fx55`: `for index in 0..=x { memory[I + index] = v[index] }`,
then `pc += 2`; the store at `I + x` panics when `I + x ≥ 4096`. -/
def Chip8.op_fx55 (s : Chip8) (opcode : Nat) : Option Chip8 :=
  let x := opcode / 256 % 16
  if s.i + x < 4096 then
    some { s with
            memory := (List.range (x + 1)).foldl
              (fun m index => fun a => if a = s.i + index then s.v index else m a)
              s.memory,
            pc := (s.pc + 2) % 65536 }
  else none

/-- Opcode `Fx65`: `for index in 0..=x { v[index] = memory[I + index] }`,
then `pc += 2`; the load at `I + x` panics when `I + x ≥ 4096`. -/
def Chip8.op_fx65 (s : Chip8) (opcode : Nat) : Option Chip8 :=
  let x := opcode / 256 % 16
  if s.i + x < 4096 then
    some { s with
            v := (List.range (x + 1)).foldl
              (fun vv index => fun j => if j = index then s.memory (s.i + index) else vv j)
              s.v,
            pc := (s.pc + 2) % 65536 }
  else none

/-- Instruction dispatch `execute_opcode`: the nibble-pattern match arms in
source order (`n1 n2 n3 n4` most-significant first), with the unmatched
fallback `pc += 2`. -/
def Chip8.execute_opcode (s : Chip8) (opcode r : Nat) : Option Chip8 :=
  let n1 := opcode / 4096 % 16
  let n2 := opcode / 256 % 16
  let n3 := opcode / 16 % 16
  let n4 := opcode % 16
  if n1 = 0x0 ∧ n2 = 0x0 ∧ n3 = 0xE ∧ n4 = 0x0 then some s.op_00e0
  else if n1 = 0x0 ∧ n2 = 0x0 ∧ n3 = 0xE ∧ n4 = 0xE then s.op_00ee
  else if n1 = 0x1 then some (s.op_1nnn opcode)
  else if n1 = 0x2 then s.op_2nnn opcode
  else if n1 = 0x3 then some (s.op_3xkk opcode)
  else if n1 = 0x4 then some (s.op_4xkk opcode)
  else if n1 = 0x5 ∧ n4 = 0x0 then some (s.op_5xy0 opcode)
  else if n1 = 0x6 then some (s.op_6xkk opcode)
  else if n1 = 0x7 then some (s.op_7xkk opcode)
  else if n1 = 0x8 ∧ n4 = 0x0 then some (s.op_8xy0 opcode)
  else if n1 = 0x8 ∧ n4 = 0x1 then some (s.op_8xy1 opcode)
  else if n1 = 0x8 ∧ n4 = 0x2 then some (s.op_8xy2 opcode)
  else if n1 = 0x8 ∧ n4 = 0x3 then some (s.op_8xy3 opcode)
  else if n1 = 0x8 ∧ n4 = 0x4 then some (s.op_8xy4 opcode)
  else if n1 = 0x8 ∧ n4 = 0x5 then some (s.op_8xy5 opcode)
  else if n1 = 0x8 ∧ n4 = 0x6 then some (s.op_8xy6 opcode)
  else if n1 = 0x8 ∧ n4 = 0x7 then some (s.op_8xy7 opcode)
  else if n1 = 0x8 ∧ n4 = 0xE then some (s.op_8xye opcode)
  else if n1 = 0x9 ∧ n4 = 0x0 then some (s.op_9xy0 opcode)
  else if n1 = 0xA then some (s.op_annn opcode)
  else if n1 = 0xB then some (s.op_bnnn opcode)
  else if n1 = 0xC then some (s.op_cxkk opcode r)
  else if n1 = 0xD then s.op_dxyn opcode
  else if n1 = 0xE ∧ n3 = 0x9 ∧ n4 = 0xE then s.op_ex9e opcode
  else if n1 = 0xE ∧ n3 = 0xA ∧ n4 = 0x1 then s.op_exa1 opcode
  else if n1 = 0xF ∧ n3 = 0x0 ∧ n4 = 0x7 then some (s.op_fx07 opcode)
  else if n1 = 0xF ∧ n3 = 0x0 ∧ n4 = 0xA then some (s.op_fx0a opcode)
  else if n1 = 0xF ∧ n3 = 0x1 ∧ n4 = 0x5 then some (s.op_fx15 opcode)
  else if n1 = 0xF ∧ n3 = 0x1 ∧ n4 = 0x8 then some (s.op_fx18 opcode)
  else if n1 = 0xF ∧ n3 = 0x1 ∧ n4 = 0xE then some (s.op_fx1e opcode)
  else if n1 = 0xF ∧ n3 = 0x2 ∧ n4 = 0x9 then some (s.op_fx29 opcode)
  else if n1 = 0xF ∧ n3 = 0x3 ∧ n4 = 0x3 then s.op_fx33 opcode
  else if n1 = 0xF ∧ n3 = 0x5 ∧ n4 = 0x5 then s.op_fx55 opcode
  else if n1 = 0xF ∧ n3 = 0x6 ∧ n4 = 0x5 then s.op_fx65 opcode
  else some { s with pc := (s.pc + 2) % 65536 }

/-- One interpreter step `cycle()`: fetch, execute, timer tick; `none`
models an aborting panic anywhere in the step. -/
def Chip8.cycle (s : Chip8) (r : Nat) : Option Chip8 := do
  let opcode ← s.fetch_opcode
  let s1 ← s.execute_opcode opcode r
  pure s1.update_timers

/-! ## Claim C1 — per-cycle `pc` policy -/

/-- C1: the claim fails on `op_dxyn`. Executing the draw opcode `0xD001` on
the freshly created machine completes (returns `some`) but leaves `pc` at
its pre-cycle value `0x200` instead of advancing it by 2 as every other
non-branching handler does. -/
theorem dxyn_leaves_pc_unchanged :
    Chip8.new.pc = 0x200 ∧
      (Chip8.new.execute_opcode 0xD001 0).map Chip8.pc = some 0x200 := by
  decide

/-! ## Claim C2 — timer tick -/

/-- C2: the claim fails on `update_timers`. With `delay_timer = 5` and
`sound_timer = 3` one tick leaves `delay_timer = 3` (decremented twice,
once in the sound branch) and `sound_timer = 3` (never decremented),
instead of 4 and 2. -/
theorem update_timers_conflates_timers :
    (Chip8.update_timers
        { Chip8.new with delay_timer := 5, sound_timer := 3 }).delay_timer = 3 ∧
      (Chip8.update_timers
        { Chip8.new with delay_timer := 5, sound_timer := 3 }).sound_timer = 3 := by
  decide

/-! ## Claim C3 — blocking `Fx0A` -/

/-- C3: the claim fails on `op_fx0a`. Loading the two-byte program
`F0 0A` and cycling once with no key pressed moves `pc` from `0x200` down
to `0x1FE` (`pc -= 2`), so the next cycle fetches the word at `0x1FE`,
not the same instruction. -/
theorem fx0a_rewinds_pc :
    Chip8.new.pc = 0x200 ∧
      ((Chip8.new.load_rom [0xF0, 0x0A]).bind (fun s => s.cycle 0)).map Chip8.pc
        = some 0x1FE := by
  decide

/-! ## Claim C6 — font address `Fx29` -/

/-- C6: the claim fails on `op_fx29`. With `I = 10` and `V0 = 2`, opcode
`0xF029` leaves `I = 10 + 2 * 5 = 20`, not the glyph address
`0 + 5 * 2 = 10`: the source adds `Vx * 5` to `I` instead of assigning. -/
theorem fx29_accumulates_into_i :
    (({ Chip8.new with i := 10, v := fun j => if j = 0 then 2 else 0 } : Chip8).op_fx29
        0xF029).i = 20 := by
  decide

/-! ## Claim C4 — oversized program load -/

/-- C4 counterexample: loading a byte sequence of length `3585`
(`> 4096 - 0x200 = 3584`) does not fail — `load_rom` returns a loaded
machine rather than any `OutOfBounds` error. -/
theorem load_rom_accepts_oversized :
    (Chip8.new.load_rom (List.replicate 3585 7)).isSome = true := by
  rfl

/-! ## Claim C5 — wrapping add `7xkk` -/

/-- C5: executing any opcode with leading nibble 7 dispatches to
`op_7xkk`, which sets `Vx` to `(Vx + kk) mod 256` and leaves every other
register — in particular `VF` whenever `x ≠ 0xF` — unchanged. -/
theorem op7xkk_wrapping_add (s : Chip8) (opcode r : Nat)
    (h7 : opcode / 4096 % 16 = 7) :
    s.execute_opcode opcode r = some (s.op_7xkk opcode) ∧
      (s.op_7xkk opcode).v (opcode / 256 % 16)
        = (s.v (opcode / 256 % 16) + opcode % 256) % 256 ∧
      (∀ j, j ≠ opcode / 256 % 16 → (s.op_7xkk opcode).v j = s.v j) := by
  refine ⟨?_, ?_, ?_⟩
  · simp [Chip8.execute_opcode, h7]
  · simp [Chip8.op_7xkk]
  · intro j hj
    simp [Chip8.op_7xkk, hj]

/-- C5 witness: with `V0 = 250` and opcode `0x700A` (`kk = 10`) the add
wraps to `V0 = 4` and `VF` keeps its value 0. -/
theorem op7xkk_wrapping_add_witness :
    (({ Chip8.new with v := fun j => if j = 0 then 250 else 0 } : Chip8).op_7xkk
        0x700A).v 0 = 4 ∧
      (({ Chip8.new with v := fun j => if j = 0 then 250 else 0 } : Chip8).op_7xkk
        0x700A).v 0xF = 0 := by
  have h := op7xkk_wrapping_add
    { Chip8.new with v := fun j => if j = 0 then 250 else 0 } 0x700A 0 (by decide)
  exact ⟨h.2.1.trans (by decide), (h.2.2 0xF (by decide)).trans (by decide)⟩

/-! ## Loop lemmas for the register dump/load opcodes -/

/-- The `Fx55` store loop: after folding the writes for all indices in `L`,
address `a` holds `v (a - i)` when `a = i + index` for some iterated
`index`, and is untouched otherwise. -/
theorem foldl_store_mem (i : Nat) (v : Nat → Nat) (L : List Nat)
    (m0 : Nat → Nat) (a : Nat) :
    (L.foldl (fun m index => fun b => if b = i + index then v index else m b) m0) a
      = if ∃ index ∈ L, a = i + index then v (a - i) else m0 a := by
  induction L generalizing m0 with
  | nil => simp
  | cons hd tl ih =>
    rw [List.foldl_cons, ih]
    by_cases hex : ∃ index ∈ tl, a = i + index
    · rw [if_pos hex, if_pos]
      obtain ⟨index, hmem, hrfl⟩ := hex
      exact ⟨index, List.mem_cons_of_mem hd hmem, hrfl⟩
    · rw [if_neg hex]
      by_cases ha : a = i + hd
      · rw [if_pos ha, if_pos ⟨hd, List.mem_cons_self hd tl, ha⟩]
        have hsub : a - i = hd := by omega
        rw [hsub]
      · rw [if_neg ha, if_neg]
        rintro ⟨index, hmem, hrfl⟩
        rcases List.mem_cons.1 hmem with hcase | hcase
        · exact ha (hcase ▸ hrfl)
        · exact hex ⟨index, hcase, hrfl⟩

/-- The `Fx65` load loop: after folding the reads for all indices in `L`,
register `j` holds `memory (i + j)` when `j ∈ L`, and is untouched
otherwise. -/
theorem foldl_load_v (i : Nat) (mem : Nat → Nat) (L : List Nat)
    (v0 : Nat → Nat) (j : Nat) :
    (L.foldl (fun vv index => fun q => if q = index then mem (i + index) else vv q) v0) j
      = if j ∈ L then mem (i + j) else v0 j := by
  induction L generalizing v0 with
  | nil => simp
  | cons hd tl ih =>
    rw [List.foldl_cons, ih]
    by_cases hmem : j ∈ tl
    · rw [if_pos hmem, if_pos (List.mem_cons_of_mem hd hmem)]
    · rw [if_neg hmem]
      by_cases hj : j = hd
      · subst hj
        rw [if_pos rfl, if_pos (List.mem_cons_self j tl)]
      · rw [if_neg hj, if_neg]
        intro hmc
        rcases List.mem_cons.1 hmc with hcase | hcase
        · exact hj hcase
        · exact hmem hcase

/-! ## Claim C9 — `Fx55`/`Fx65` round-trip -/

/-- C9: whenever `I + x < 4096`, storing `V0..Vx` with `Fx55` and then
loading with `Fx65` at the same `I` succeeds and recovers every register
unchanged. -/
theorem fx55_fx65_roundtrip (s : Chip8) (opcode : Nat)
    (h : s.i + opcode / 256 % 16 < 4096) :
    ∃ t, (s.op_fx55 opcode).bind (fun u => u.op_fx65 opcode) = some t ∧
      ∀ j, t.v j = s.v j := by
  unfold Chip8.op_fx55
  rw [if_pos h]
  rw [Option.some_bind]
  unfold Chip8.op_fx65
  rw [if_pos h]
  refine ⟨_, rfl, ?_⟩
  intro j
  show (List.range (opcode / 256 % 16 + 1)).foldl _ s.v j = s.v j
  rw [foldl_load_v]
  by_cases hj : j ∈ List.range (opcode / 256 % 16 + 1)
  · rw [if_pos hj]
    show (List.range (opcode / 256 % 16 + 1)).foldl _ s.memory (s.i + j) = s.v j
    rw [foldl_store_mem]
    have hex : ∃ index ∈ List.range (opcode / 256 % 16 + 1), s.i + j = s.i + index :=
      ⟨j, hj, rfl⟩
    rw [if_pos hex]
    congr 1
    omega
  · rw [if_neg hj]

/-- C9 witness: `V0..V3 = [1,2,3,4]`, `I = 0x300`, opcode `0xF355`
(`x = 3`): the store/load pair recovers the registers exactly. -/
theorem fx55_fx65_roundtrip_witness :
    ∃ t,
      (({ Chip8.new with
            i := 0x300
            v := fun j => if j < 4 then j + 1 else 0 } : Chip8).op_fx55 0xF355).bind
          (fun u => u.op_fx65 0xF355) = some t ∧
      ∀ j, t.v j
        = ({ Chip8.new with
               i := 0x300
               v := fun j => if j < 4 then j + 1 else 0 } : Chip8).v j :=
  fx55_fx65_roundtrip _ 0xF355 (by decide)

/-! ## Claim C10 — out-of-range fetch and key index -/

/-- C10: with `pc + 1 ≥ 4096` the fetch (and hence the whole cycle) signals
the out-of-bounds condition (`none`, the modelled index panic) rather than
wrapping; likewise `Ex9E`/`ExA1` with `Vx > 15` signal the out-of-range
keypad index. -/
theorem oob_fetch_and_key_fault (s : Chip8) (opcode r : Nat) :
    (4096 ≤ s.pc + 1 → s.fetch_opcode = none ∧ s.cycle r = none) ∧
      (16 ≤ s.v (opcode / 256 % 16) →
        s.op_ex9e opcode = none ∧ s.op_exa1 opcode = none) := by
  constructor
  · intro h
    have hf : s.fetch_opcode = none := by
      unfold Chip8.fetch_opcode
      rw [if_neg (by omega)]
    exact ⟨hf, by simp [Chip8.cycle, hf]⟩
  · intro h
    constructor
    · unfold Chip8.op_ex9e
      rw [if_neg (by omega)]
    · unfold Chip8.op_exa1
      rw [if_neg (by omega)]

/-- C10 witness: at `pc = 4095` the cycle faults, and `Ex9E`/`ExA1` with
`V0 = 200` fault on the keypad index. -/
theorem oob_fetch_and_key_fault_witness :
    (({ Chip8.new with
          pc := 4095
          v := fun _ => 200 } : Chip8).fetch_opcode = none ∧
      ({ Chip8.new with
           pc := 4095
           v := fun _ => 200 } : Chip8).cycle 0 = none) ∧
      (({ Chip8.new with
            pc := 4095
            v := fun _ => 200 } : Chip8).op_ex9e 0xE09E = none ∧
        ({ Chip8.new with
             pc := 4095
             v := fun _ => 200 } : Chip8).op_exa1 0xE0A1 = none) := by
  have h9e := oob_fetch_and_key_fault
    { Chip8.new with
        pc := 4095
        v := fun _ => 200 } 0xE09E 0
  have ha1 := oob_fetch_and_key_fault
    { Chip8.new with
        pc := 4095
        v := fun _ => 200 } 0xE0A1 0
  exact ⟨h9e.1 (by decide), (h9e.2 (by decide)).1, (ha1.2 (by decide)).2⟩

/-- C4 amended: `load_rom` never fails on oversized input; it writes at
most the first `4096 - 0x200 = 3584` bytes of the sequence into the
program region (silent truncation) and never touches memory below
`0x200`. -/
theorem load_rom_truncates (s : Chip8) (rom : List Nat) :
    ∃ t, s.load_rom rom = some t ∧
      (∀ a, a < 0x200 → t.memory a = s.memory a) ∧
      (∀ a, 0x200 + min rom.length 3584 ≤ a → t.memory a = s.memory a) ∧
      (∀ k, k < min rom.length 3584 → t.memory (0x200 + k) = rom.getD k 0) := by
  refine ⟨_, rfl, ?_, ?_, ?_⟩
  · intro a ha
    show (if 0x200 ≤ a ∧ a < 0x200 + min rom.length 3584 then _ else s.memory a) = _
    rw [if_neg (by omega)]
  · intro a ha
    show (if 0x200 ≤ a ∧ a < 0x200 + min rom.length 3584 then _ else s.memory a) = _
    rw [if_neg (by omega)]
  · intro k hk
    show (if 0x200 ≤ 0x200 + k ∧ 0x200 + k < 0x200 + min rom.length 3584 then
            rom.getD (0x200 + k - 0x200) 0 else _) = _
    rw [if_pos (by omega)]
    rw [Nat.add_sub_cancel_left]

/-- C4 witness: loading the three bytes `[1, 2, 3]` into a fresh machine
succeeds, preserves the region below `0x200`, and places the bytes at
`0x200..0x202`. -/
theorem load_rom_truncates_witness :
    ∃ t, Chip8.new.load_rom [1, 2, 3] = some t ∧
      (∀ a, a < 0x200 → t.memory a = Chip8.new.memory a) ∧
      (∀ a, 0x200 + min ([1, 2, 3] : List Nat).length 3584 ≤ a →
        t.memory a = Chip8.new.memory a) ∧
      (∀ k, k < min ([1, 2, 3] : List Nat).length 3584 →
        t.memory (0x200 + k) = ([1, 2, 3] : List Nat).getD k 0) :=
  load_rom_truncates Chip8.new [1, 2, 3]

/-! ## Claim C7 — font region immutability -/

/-- C7 counterexample: the two-instruction program `A000 F033` (set
`I = 0`, then store the BCD of `V0`) is loaded and run for two cycles from
a fresh machine; it overwrites font byte `0x000`, which the creation-time
font set to `0xF0`, with `0`. Opcodes can therefore mutate the
`0x000–0x04F` region in reachable states. -/
theorem fx33_overwrites_font :
    Chip8.new.memory 0 = 0xF0 ∧
      ((Chip8.new.load_rom [0xA0, 0x00, 0xF0, 0x33]).bind (fun s => s.cycle 0)
          |>.bind (fun s => s.cycle 0)).map (fun s => s.memory 0) = some 0 := by
  decide

set_option maxRecDepth 8000 in
set_option linter.unreachableTactic false in
set_option linter.unusedTactic false in
/-- C7 amended: the font region `0x000–0x04F` holds the built-in font at
creation, and executing any opcode preserves it provided `I ≥ 0x50` at
execution time (only `Fx33`/`Fx55` write memory at all, and they write
at addresses `≥ I`); with `I < 0x50` those two opcodes can mutate it. -/
theorem font_region_preserved (s : Chip8) (opcode r : Nat) (t : Chip8)
    (hi : 0x50 ≤ s.i) (hex : s.execute_opcode opcode r = some t)
    (a : Nat) (ha : a < 0x50) :
    t.memory a = s.memory a ∧ Chip8.new.memory a = FONTSET a := by
  constructor
  · simp only [Chip8.execute_opcode] at hex
    by_cases h1 : opcode / 4096 % 16 = 0 ∧ opcode / 256 % 16 = 0 ∧ opcode / 16 % 16 = 14 ∧ opcode % 16 = 0
    · rw [if_pos h1] at hex
      simp only [Option.some.injEq] at hex
      subst hex
      first
        | rfl
        | (simp only [Chip8.op_3xkk, Chip8.op_4xkk, Chip8.op_5xy0, Chip8.op_9xy0,
             Chip8.op_fx0a]
           split <;> rfl)
    rw [if_neg h1] at hex
    by_cases h2 : opcode / 4096 % 16 = 0 ∧ opcode / 256 % 16 = 0 ∧ opcode / 16 % 16 = 14 ∧ opcode % 16 = 14
    · rw [if_pos h2] at hex
      simp only [Chip8.op_00ee, Chip8.op_2nnn, Chip8.op_dxyn, Chip8.op_ex9e,
        Chip8.op_exa1, Chip8.op_fx33, Chip8.op_fx55, Chip8.op_fx65] at hex
      repeat' split at hex
      all_goals try exact Option.noConfusion hex
      all_goals simp only [Option.some.injEq] at hex
      all_goals subst hex
      all_goals
        first
          | rfl
          | (dsimp only
             rw [if_neg (by omega), if_neg (by omega), if_neg (by omega)])
          | (dsimp only
             rw [foldl_store_mem, if_neg (by rintro ⟨index, hmemidx, hidx⟩; omega)])
    rw [if_neg h2] at hex
    by_cases h3 : opcode / 4096 % 16 = 1
    · rw [if_pos h3] at hex
      simp only [Option.some.injEq] at hex
      subst hex
      first
        | rfl
        | (simp only [Chip8.op_3xkk, Chip8.op_4xkk, Chip8.op_5xy0, Chip8.op_9xy0,
             Chip8.op_fx0a]
           split <;> rfl)
    rw [if_neg h3] at hex
    by_cases h4 : opcode / 4096 % 16 = 2
    · rw [if_pos h4] at hex
      simp only [Chip8.op_00ee, Chip8.op_2nnn, Chip8.op_dxyn, Chip8.op_ex9e,
        Chip8.op_exa1, Chip8.op_fx33, Chip8.op_fx55, Chip8.op_fx65] at hex
      repeat' split at hex
      all_goals try exact Option.noConfusion hex
      all_goals simp only [Option.some.injEq] at hex
      all_goals subst hex
      all_goals
        first
          | rfl
          | (dsimp only
             rw [if_neg (by omega), if_neg (by omega), if_neg (by omega)])
          | (dsimp only
             rw [foldl_store_mem, if_neg (by rintro ⟨index, hmemidx, hidx⟩; omega)])
    rw [if_neg h4] at hex
    by_cases h5 : opcode / 4096 % 16 = 3
    · rw [if_pos h5] at hex
      simp only [Option.some.injEq] at hex
      subst hex
      first
        | rfl
        | (simp only [Chip8.op_3xkk, Chip8.op_4xkk, Chip8.op_5xy0, Chip8.op_9xy0,
             Chip8.op_fx0a]
           split <;> rfl)
    rw [if_neg h5] at hex
    by_cases h6 : opcode / 4096 % 16 = 4
    · rw [if_pos h6] at hex
      simp only [Option.some.injEq] at hex
      subst hex
      first
        | rfl
        | (simp only [Chip8.op_3xkk, Chip8.op_4xkk, Chip8.op_5xy0, Chip8.op_9xy0,
             Chip8.op_fx0a]
           split <;> rfl)
    rw [if_neg h6] at hex
    by_cases h7 : opcode / 4096 % 16 = 5 ∧ opcode % 16 = 0
    · rw [if_pos h7] at hex
      simp only [Option.some.injEq] at hex
      subst hex
      first
        | rfl
        | (simp only [Chip8.op_3xkk, Chip8.op_4xkk, Chip8.op_5xy0, Chip8.op_9xy0,
             Chip8.op_fx0a]
           split <;> rfl)
    rw [if_neg h7] at hex
    by_cases h8 : opcode / 4096 % 16 = 6
    · rw [if_pos h8] at hex
      simp only [Option.some.injEq] at hex
      subst hex
      first
        | rfl
        | (simp only [Chip8.op_3xkk, Chip8.op_4xkk, Chip8.op_5xy0, Chip8.op_9xy0,
             Chip8.op_fx0a]
           split <;> rfl)
    rw [if_neg h8] at hex
    by_cases h9 : opcode / 4096 % 16 = 7
    · rw [if_pos h9] at hex
      simp only [Option.some.injEq] at hex
      subst hex
      first
        | rfl
        | (simp only [Chip8.op_3xkk, Chip8.op_4xkk, Chip8.op_5xy0, Chip8.op_9xy0,
             Chip8.op_fx0a]
           split <;> rfl)
    rw [if_neg h9] at hex
    by_cases h10 : opcode / 4096 % 16 = 8 ∧ opcode % 16 = 0
    · rw [if_pos h10] at hex
      simp only [Option.some.injEq] at hex
      subst hex
      first
        | rfl
        | (simp only [Chip8.op_3xkk, Chip8.op_4xkk, Chip8.op_5xy0, Chip8.op_9xy0,
             Chip8.op_fx0a]
           split <;> rfl)
    rw [if_neg h10] at hex
    by_cases h11 : opcode / 4096 % 16 = 8 ∧ opcode % 16 = 1
    · rw [if_pos h11] at hex
      simp only [Option.some.injEq] at hex
      subst hex
      first
        | rfl
        | (simp only [Chip8.op_3xkk, Chip8.op_4xkk, Chip8.op_5xy0, Chip8.op_9xy0,
             Chip8.op_fx0a]
           split <;> rfl)
    rw [if_neg h11] at hex
    by_cases h12 : opcode / 4096 % 16 = 8 ∧ opcode % 16 = 2
    · rw [if_pos h12] at hex
      simp only [Option.some.injEq] at hex
      subst hex
      first
        | rfl
        | (simp only [Chip8.op_3xkk, Chip8.op_4xkk, Chip8.op_5xy0, Chip8.op_9xy0,
             Chip8.op_fx0a]
           split <;> rfl)
    rw [if_neg h12] at hex
    by_cases h13 : opcode / 4096 % 16 = 8 ∧ opcode % 16 = 3
    · rw [if_pos h13] at hex
      simp only [Option.some.injEq] at hex
      subst hex
      first
        | rfl
        | (simp only [Chip8.op_3xkk, Chip8.op_4xkk, Chip8.op_5xy0, Chip8.op_9xy0,
             Chip8.op_fx0a]
           split <;> rfl)
    rw [if_neg h13] at hex
    by_cases h14 : opcode / 4096 % 16 = 8 ∧ opcode % 16 = 4
    · rw [if_pos h14] at hex
      simp only [Option.some.injEq] at hex
      subst hex
      first
        | rfl
        | (simp only [Chip8.op_3xkk, Chip8.op_4xkk, Chip8.op_5xy0, Chip8.op_9xy0,
             Chip8.op_fx0a]
           split <;> rfl)
    rw [if_neg h14] at hex
    by_cases h15 : opcode / 4096 % 16 = 8 ∧ opcode % 16 = 5
    · rw [if_pos h15] at hex
      simp only [Option.some.injEq] at hex
      subst hex
      first
        | rfl
        | (simp only [Chip8.op_3xkk, Chip8.op_4xkk, Chip8.op_5xy0, Chip8.op_9xy0,
             Chip8.op_fx0a]
           split <;> rfl)
    rw [if_neg h15] at hex
    by_cases h16 : opcode / 4096 % 16 = 8 ∧ opcode % 16 = 6
    · rw [if_pos h16] at hex
      simp only [Option.some.injEq] at hex
      subst hex
      first
        | rfl
        | (simp only [Chip8.op_3xkk, Chip8.op_4xkk, Chip8.op_5xy0, Chip8.op_9xy0,
             Chip8.op_fx0a]
           split <;> rfl)
    rw [if_neg h16] at hex
    by_cases h17 : opcode / 4096 % 16 = 8 ∧ opcode % 16 = 7
    · rw [if_pos h17] at hex
      simp only [Option.some.injEq] at hex
      subst hex
      first
        | rfl
        | (simp only [Chip8.op_3xkk, Chip8.op_4xkk, Chip8.op_5xy0, Chip8.op_9xy0,
             Chip8.op_fx0a]
           split <;> rfl)
    rw [if_neg h17] at hex
    by_cases h18 : opcode / 4096 % 16 = 8 ∧ opcode % 16 = 14
    · rw [if_pos h18] at hex
      simp only [Option.some.injEq] at hex
      subst hex
      first
        | rfl
        | (simp only [Chip8.op_3xkk, Chip8.op_4xkk, Chip8.op_5xy0, Chip8.op_9xy0,
             Chip8.op_fx0a]
           split <;> rfl)
    rw [if_neg h18] at hex
    by_cases h19 : opcode / 4096 % 16 = 9 ∧ opcode % 16 = 0
    · rw [if_pos h19] at hex
      simp only [Option.some.injEq] at hex
      subst hex
      first
        | rfl
        | (simp only [Chip8.op_3xkk, Chip8.op_4xkk, Chip8.op_5xy0, Chip8.op_9xy0,
             Chip8.op_fx0a]
           split <;> rfl)
    rw [if_neg h19] at hex
    by_cases h20 : opcode / 4096 % 16 = 10
    · rw [if_pos h20] at hex
      simp only [Option.some.injEq] at hex
      subst hex
      first
        | rfl
        | (simp only [Chip8.op_3xkk, Chip8.op_4xkk, Chip8.op_5xy0, Chip8.op_9xy0,
             Chip8.op_fx0a]
           split <;> rfl)
    rw [if_neg h20] at hex
    by_cases h21 : opcode / 4096 % 16 = 11
    · rw [if_pos h21] at hex
      simp only [Option.some.injEq] at hex
      subst hex
      first
        | rfl
        | (simp only [Chip8.op_3xkk, Chip8.op_4xkk, Chip8.op_5xy0, Chip8.op_9xy0,
             Chip8.op_fx0a]
           split <;> rfl)
    rw [if_neg h21] at hex
    by_cases h22 : opcode / 4096 % 16 = 12
    · rw [if_pos h22] at hex
      simp only [Option.some.injEq] at hex
      subst hex
      first
        | rfl
        | (simp only [Chip8.op_3xkk, Chip8.op_4xkk, Chip8.op_5xy0, Chip8.op_9xy0,
             Chip8.op_fx0a]
           split <;> rfl)
    rw [if_neg h22] at hex
    by_cases h23 : opcode / 4096 % 16 = 13
    · rw [if_pos h23] at hex
      simp only [Chip8.op_00ee, Chip8.op_2nnn, Chip8.op_dxyn, Chip8.op_ex9e,
        Chip8.op_exa1, Chip8.op_fx33, Chip8.op_fx55, Chip8.op_fx65] at hex
      repeat' split at hex
      all_goals try exact Option.noConfusion hex
      all_goals simp only [Option.some.injEq] at hex
      all_goals subst hex
      all_goals
        first
          | rfl
          | (dsimp only
             rw [if_neg (by omega), if_neg (by omega), if_neg (by omega)])
          | (dsimp only
             rw [foldl_store_mem, if_neg (by rintro ⟨index, hmemidx, hidx⟩; omega)])
    rw [if_neg h23] at hex
    by_cases h24 : opcode / 4096 % 16 = 14 ∧ opcode / 16 % 16 = 9 ∧ opcode % 16 = 14
    · rw [if_pos h24] at hex
      simp only [Chip8.op_00ee, Chip8.op_2nnn, Chip8.op_dxyn, Chip8.op_ex9e,
        Chip8.op_exa1, Chip8.op_fx33, Chip8.op_fx55, Chip8.op_fx65] at hex
      repeat' split at hex
      all_goals try exact Option.noConfusion hex
      all_goals simp only [Option.some.injEq] at hex
      all_goals subst hex
      all_goals
        first
          | rfl
          | (dsimp only
             rw [if_neg (by omega), if_neg (by omega), if_neg (by omega)])
          | (dsimp only
             rw [foldl_store_mem, if_neg (by rintro ⟨index, hmemidx, hidx⟩; omega)])
    rw [if_neg h24] at hex
    by_cases h25 : opcode / 4096 % 16 = 14 ∧ opcode / 16 % 16 = 10 ∧ opcode % 16 = 1
    · rw [if_pos h25] at hex
      simp only [Chip8.op_00ee, Chip8.op_2nnn, Chip8.op_dxyn, Chip8.op_ex9e,
        Chip8.op_exa1, Chip8.op_fx33, Chip8.op_fx55, Chip8.op_fx65] at hex
      repeat' split at hex
      all_goals try exact Option.noConfusion hex
      all_goals simp only [Option.some.injEq] at hex
      all_goals subst hex
      all_goals
        first
          | rfl
          | (dsimp only
             rw [if_neg (by omega), if_neg (by omega), if_neg (by omega)])
          | (dsimp only
             rw [foldl_store_mem, if_neg (by rintro ⟨index, hmemidx, hidx⟩; omega)])
    rw [if_neg h25] at hex
    by_cases h26 : opcode / 4096 % 16 = 15 ∧ opcode / 16 % 16 = 0 ∧ opcode % 16 = 7
    · rw [if_pos h26] at hex
      simp only [Option.some.injEq] at hex
      subst hex
      first
        | rfl
        | (simp only [Chip8.op_3xkk, Chip8.op_4xkk, Chip8.op_5xy0, Chip8.op_9xy0,
             Chip8.op_fx0a]
           split <;> rfl)
    rw [if_neg h26] at hex
    by_cases h27 : opcode / 4096 % 16 = 15 ∧ opcode / 16 % 16 = 0 ∧ opcode % 16 = 10
    · rw [if_pos h27] at hex
      simp only [Option.some.injEq] at hex
      subst hex
      first
        | rfl
        | (simp only [Chip8.op_3xkk, Chip8.op_4xkk, Chip8.op_5xy0, Chip8.op_9xy0,
             Chip8.op_fx0a]
           split <;> rfl)
    rw [if_neg h27] at hex
    by_cases h28 : opcode / 4096 % 16 = 15 ∧ opcode / 16 % 16 = 1 ∧ opcode % 16 = 5
    · rw [if_pos h28] at hex
      simp only [Option.some.injEq] at hex
      subst hex
      first
        | rfl
        | (simp only [Chip8.op_3xkk, Chip8.op_4xkk, Chip8.op_5xy0, Chip8.op_9xy0,
             Chip8.op_fx0a]
           split <;> rfl)
    rw [if_neg h28] at hex
    by_cases h29 : opcode / 4096 % 16 = 15 ∧ opcode / 16 % 16 = 1 ∧ opcode % 16 = 8
    · rw [if_pos h29] at hex
      simp only [Option.some.injEq] at hex
      subst hex
      first
        | rfl
        | (simp only [Chip8.op_3xkk, Chip8.op_4xkk, Chip8.op_5xy0, Chip8.op_9xy0,
             Chip8.op_fx0a]
           split <;> rfl)
    rw [if_neg h29] at hex
    by_cases h30 : opcode / 4096 % 16 = 15 ∧ opcode / 16 % 16 = 1 ∧ opcode % 16 = 14
    · rw [if_pos h30] at hex
      simp only [Option.some.injEq] at hex
      subst hex
      first
        | rfl
        | (simp only [Chip8.op_3xkk, Chip8.op_4xkk, Chip8.op_5xy0, Chip8.op_9xy0,
             Chip8.op_fx0a]
           split <;> rfl)
    rw [if_neg h30] at hex
    by_cases h31 : opcode / 4096 % 16 = 15 ∧ opcode / 16 % 16 = 2 ∧ opcode % 16 = 9
    · rw [if_pos h31] at hex
      simp only [Option.some.injEq] at hex
      subst hex
      first
        | rfl
        | (simp only [Chip8.op_3xkk, Chip8.op_4xkk, Chip8.op_5xy0, Chip8.op_9xy0,
             Chip8.op_fx0a]
           split <;> rfl)
    rw [if_neg h31] at hex
    by_cases h32 : opcode / 4096 % 16 = 15 ∧ opcode / 16 % 16 = 3 ∧ opcode % 16 = 3
    · rw [if_pos h32] at hex
      simp only [Chip8.op_00ee, Chip8.op_2nnn, Chip8.op_dxyn, Chip8.op_ex9e,
        Chip8.op_exa1, Chip8.op_fx33, Chip8.op_fx55, Chip8.op_fx65] at hex
      repeat' split at hex
      all_goals try exact Option.noConfusion hex
      all_goals simp only [Option.some.injEq] at hex
      all_goals subst hex
      all_goals
        first
          | rfl
          | (dsimp only
             rw [if_neg (by omega), if_neg (by omega), if_neg (by omega)])
          | (dsimp only
             rw [foldl_store_mem, if_neg (by rintro ⟨index, hmemidx, hidx⟩; omega)])
    rw [if_neg h32] at hex
    by_cases h33 : opcode / 4096 % 16 = 15 ∧ opcode / 16 % 16 = 5 ∧ opcode % 16 = 5
    · rw [if_pos h33] at hex
      simp only [Chip8.op_00ee, Chip8.op_2nnn, Chip8.op_dxyn, Chip8.op_ex9e,
        Chip8.op_exa1, Chip8.op_fx33, Chip8.op_fx55, Chip8.op_fx65] at hex
      repeat' split at hex
      all_goals try exact Option.noConfusion hex
      all_goals simp only [Option.some.injEq] at hex
      all_goals subst hex
      all_goals
        first
          | rfl
          | (dsimp only
             rw [if_neg (by omega), if_neg (by omega), if_neg (by omega)])
          | (dsimp only
             rw [foldl_store_mem, if_neg (by rintro ⟨index, hmemidx, hidx⟩; omega)])
    rw [if_neg h33] at hex
    by_cases h34 : opcode / 4096 % 16 = 15 ∧ opcode / 16 % 16 = 6 ∧ opcode % 16 = 5
    · rw [if_pos h34] at hex
      simp only [Chip8.op_00ee, Chip8.op_2nnn, Chip8.op_dxyn, Chip8.op_ex9e,
        Chip8.op_exa1, Chip8.op_fx33, Chip8.op_fx55, Chip8.op_fx65] at hex
      repeat' split at hex
      all_goals try exact Option.noConfusion hex
      all_goals simp only [Option.some.injEq] at hex
      all_goals subst hex
      all_goals
        first
          | rfl
          | (dsimp only
             rw [if_neg (by omega), if_neg (by omega), if_neg (by omega)])
          | (dsimp only
             rw [foldl_store_mem, if_neg (by rintro ⟨index, hmemidx, hidx⟩; omega)])
    rw [if_neg h34] at hex
    simp only [Option.some.injEq] at hex
    subst hex
    rfl
  · show (if a < 80 then FONTSET a else (0 : Nat)) = FONTSET a
    rw [if_pos (by omega)]

/-- C7 witness: executing the clear-screen opcode `00E0` on a machine with
`I = 0x300` leaves font byte `0x000` untouched, and creation wrote
`FONTSET 0` there. -/
theorem font_region_preserved_witness :
    (Chip8.op_00e0 { Chip8.new with i := 0x300 }).memory 0
        = ({ Chip8.new with i := 0x300 } : Chip8).memory 0 ∧
      Chip8.new.memory 0 = FONTSET 0 :=
  font_region_preserved { Chip8.new with i := 0x300 } 0x00E0 0
    (Chip8.op_00e0 { Chip8.new with i := 0x300 }) (by decide) rfl 0 (by decide)

/-! ## Draw-loop lemmas for `Dxyn` -/

/-- Unfolding `flipsOver` over a loop iteration whose sprite bit is set. -/
theorem flipsOver_cons_pos (mem : Nat → Nat) (i vx vy : Nat) (rc : Nat × Nat)
    (t : List (Nat × Nat)) (hb : spriteBit mem i rc.1 rc.2 = true) :
    flipsOver mem i vx vy (rc :: t)
      = pixelIndex vx vy rc.1 rc.2 :: flipsOver mem i vx vy t := by
  simp [flipsOver, List.filter_cons, hb]

/-- Unfolding `flipsOver` over a loop iteration whose sprite bit is clear. -/
theorem flipsOver_cons_neg (mem : Nat → Nat) (i vx vy : Nat) (rc : Nat × Nat)
    (t : List (Nat × Nat)) (hb : spriteBit mem i rc.1 rc.2 = false) :
    flipsOver mem i vx vy (rc :: t) = flipsOver mem i vx vy t := by
  simp [flipsOver, List.filter_cons, hb]

/-- Two `Bool`-valued functions that agree on a list give the same `any`. -/
theorem any_eq_of_agree {l : List Nat} {f g : Nat → Bool}
    (h : ∀ q ∈ l, f q = g q) : l.any f = l.any g := by
  induction l with
  | nil => rfl
  | cons hd tl ih =>
    simp only [List.any_cons]
    rw [h hd (List.mem_cons_self hd tl), ih fun q hq => h q (List.mem_cons_of_mem hd hq)]

/-- Display component of the draw loop: provided no framebuffer cell is
targeted twice, a cell ends up toggled exactly when it is one of the loop's
flip targets. -/
theorem drawLoop_display (mem : Nat → Nat) (i vx vy : Nat) (L : List (Nat × Nat))
    (d : Nat → Bool) (vf : Nat) (q : Nat)
    (hnd : (flipsOver mem i vx vy L).Nodup) :
    (L.foldl (drawStep mem i vx vy) (d, vf)).1 q
      = if q ∈ flipsOver mem i vx vy L then !d q else d q := by
  induction L generalizing d vf with
  | nil => simp [flipsOver]
  | cons rc t ih =>
    rw [List.foldl_cons]
    by_cases hb : spriteBit mem i rc.1 rc.2
    · rw [flipsOver_cons_pos mem i vx vy rc t hb] at hnd ⊢
      have hpix : pixelIndex vx vy rc.1 rc.2 ∉ flipsOver mem i vx vy t :=
        (List.nodup_cons.1 hnd).1
      have hstep : drawStep mem i vx vy (d, vf) rc
          = (fun p => if p = pixelIndex vx vy rc.1 rc.2 then !d p else d p,
             if d (pixelIndex vx vy rc.1 rc.2) then 1 else vf) := by
        simp [drawStep, hb]
      rw [hstep, ih _ _ (List.nodup_cons.1 hnd).2]
      by_cases hq : q = pixelIndex vx vy rc.1 rc.2
      · have hqn : q ∉ flipsOver mem i vx vy t := by
          rw [hq]; exact hpix
        simp [hq, hqn, hpix]
      · by_cases hqt : q ∈ flipsOver mem i vx vy t
        · simp [hqt, hq]
        · simp [hqt, hq]
    · have hb2 : spriteBit mem i rc.1 rc.2 = false := by
        simpa using hb
      rw [flipsOver_cons_neg mem i vx vy rc t hb2] at hnd ⊢
      have hstep : drawStep mem i vx vy (d, vf) rc = (d, vf) := by
        simp [drawStep, hb2]
      rw [hstep, ih _ _ hnd]

/-- Collision-flag component of the draw loop: provided no framebuffer cell
is targeted twice, the threaded flag ends at 1 exactly when some flip
target was lit at loop start, and is otherwise left at its initial value. -/
theorem drawLoop_vf (mem : Nat → Nat) (i vx vy : Nat) (L : List (Nat × Nat))
    (d : Nat → Bool) (vf : Nat)
    (hnd : (flipsOver mem i vx vy L).Nodup) :
    (L.foldl (drawStep mem i vx vy) (d, vf)).2
      = if (flipsOver mem i vx vy L).any (fun q => d q) then 1 else vf := by
  induction L generalizing d vf with
  | nil => simp [flipsOver]
  | cons rc t ih =>
    rw [List.foldl_cons]
    by_cases hb : spriteBit mem i rc.1 rc.2
    · rw [flipsOver_cons_pos mem i vx vy rc t hb] at hnd ⊢
      have hpix : pixelIndex vx vy rc.1 rc.2 ∉ flipsOver mem i vx vy t :=
        (List.nodup_cons.1 hnd).1
      have hstep : drawStep mem i vx vy (d, vf) rc
          = (fun p => if p = pixelIndex vx vy rc.1 rc.2 then !d p else d p,
             if d (pixelIndex vx vy rc.1 rc.2) then 1 else vf) := by
        simp [drawStep, hb]
      rw [hstep, ih _ _ (List.nodup_cons.1 hnd).2]
      have hagree : (flipsOver mem i vx vy t).any
            (fun q => if q = pixelIndex vx vy rc.1 rc.2 then !d q else d q)
          = (flipsOver mem i vx vy t).any (fun q => d q) := by
        apply any_eq_of_agree
        intro q hq
        rw [if_neg]
        intro hrfl
        exact hpix (hrfl ▸ hq)
      rw [hagree, List.any_cons]
      by_cases hdp : d (pixelIndex vx vy rc.1 rc.2)
      · simp [hdp]
      · simp only [hdp]
        by_cases hany : (flipsOver mem i vx vy t).any (fun q => d q)
        · simp [hany]
        · simp [hany, hdp]
    · have hb2 : spriteBit mem i rc.1 rc.2 = false := by
        simpa using hb
      rw [flipsOver_cons_neg mem i vx vy rc t hb2] at hnd ⊢
      have hstep : drawStep mem i vx vy (d, vf) rc = (d, vf) := by
        simp [drawStep, hb2]
      rw [hstep, ih _ _ hnd]

/-- Membership in the draw-loop iteration space. -/
theorem mem_drawPairs {height : Nat} {rc : Nat × Nat} :
    rc ∈ drawPairs height ↔ rc.1 < height ∧ rc.2 < 8 := by
  unfold drawPairs
  constructor
  · intro h
    simp only [List.mem_flatMap, List.mem_map, List.mem_range] at h
    obtain ⟨row, hrow, col, hcol, hrfl⟩ := h
    rw [← hrfl]
    exact ⟨hrow, hcol⟩
  · intro h
    simp only [List.mem_flatMap, List.mem_map, List.mem_range]
    exact ⟨rc.1, h.1, rc.2, h.2, rfl⟩

/-- The draw-loop iteration space never repeats a `(row, col)` pair. -/
theorem drawPairs_nodup (height : Nat) : (drawPairs height).Nodup := by
  have heq : drawPairs height = (List.range height).product (List.range 8) := rfl
  rw [heq]
  exact (List.nodup_range height).product (List.nodup_range 8)

/-- Within one sprite draw (`row < 16`, `col < 8`) two distinct loop
iterations always target distinct framebuffer cells, for every position:
the offsets `col + row * 64` stay below the `32 * 64` wrap modulus. -/
theorem pixelIndex_inj (vx vy : Nat) {r1 c1 r2 c2 : Nat}
    (hr1 : r1 < 16) (hc1 : c1 < 8) (hr2 : r2 < 16) (hc2 : c2 < 8)
    (h : pixelIndex vx vy r1 c1 = pixelIndex vx vy r2 c2) :
    r1 = r2 ∧ c1 = c2 := by
  unfold pixelIndex at h
  constructor <;> omega

/-- No framebuffer cell is toggled twice by a single draw of at most
16 rows. -/
theorem flipTargets_nodup (mem : Nat → Nat) (i vx vy height : Nat)
    (hh : height ≤ 16) : (flipTargets mem i vx vy height).Nodup := by
  unfold flipTargets flipsOver
  apply List.Nodup.map_on
  · intro a ha b hb hfab
    have haa := mem_drawPairs.1 (List.mem_of_mem_filter ha)
    have hbb := mem_drawPairs.1 (List.mem_of_mem_filter hb)
    have hinj := pixelIndex_inj vx vy (by omega) haa.2 (by omega) hbb.2 hfab
    exact Prod.ext hinj.1 hinj.2
  · exact (drawPairs_nodup height).filter _

/-! ## Claim C8 — double draw -/

/-- C8 amended: drawing the identical in-bounds sprite twice in succession
(with position registers other than `VF`) restores the pre-draw
framebuffer exactly; the second draw reports `VF = 1` exactly when some
set sprite bit targets a cell that was off before the first draw — not
whenever the sprite is nonempty. -/
theorem dxyn_double_draw (s : Chip8) (opcode : Nat)
    (hx : opcode / 256 % 16 ≠ 15) (hy : opcode / 16 % 16 ≠ 15)
    (hg : opcode % 16 = 0 ∨ s.i + opcode % 16 ≤ 4096) :
    ∃ t, (s.op_dxyn opcode).bind (fun u => u.op_dxyn opcode) = some t ∧
      (∀ q, t.display q = s.display q) ∧
      t.v 15 = (if (flipTargets s.memory s.i (s.v (opcode / 256 % 16))
                      (s.v (opcode / 16 % 16)) (opcode % 16)).any
                    (fun q => !s.display q) then 1 else 0) := by
  have hnd : (flipTargets s.memory s.i (s.v (opcode / 256 % 16))
      (s.v (opcode / 16 % 16)) (opcode % 16)).Nodup :=
    flipTargets_nodup _ _ _ _ _ (by omega)
  simp only [Chip8.op_dxyn]
  rw [if_pos hg]
  rw [Option.some_bind]
  dsimp only
  rw [if_neg hx, if_neg hy, if_pos hg]
  refine ⟨_, rfl, ?_, ?_⟩
  · intro q
    dsimp only
    rw [drawLoop_display s.memory s.i (s.v (opcode / 256 % 16))
        (s.v (opcode / 16 % 16)) (drawPairs (opcode % 16)) _ 0 q hnd]
    rw [drawLoop_display s.memory s.i (s.v (opcode / 256 % 16))
        (s.v (opcode / 16 % 16)) (drawPairs (opcode % 16)) s.display 0 q hnd]
    by_cases hqF : q ∈ flipsOver s.memory s.i (s.v (opcode / 256 % 16))
        (s.v (opcode / 16 % 16)) (drawPairs (opcode % 16))
    · simp [hqF]
    · simp [hqF]
  · dsimp only
    rw [if_pos rfl]
    rw [drawLoop_vf s.memory s.i (s.v (opcode / 256 % 16))
        (s.v (opcode / 16 % 16)) (drawPairs (opcode % 16)) _ 0 hnd]
    have hagree : ((flipsOver s.memory s.i (s.v (opcode / 256 % 16))
          (s.v (opcode / 16 % 16)) (drawPairs (opcode % 16))).any fun q =>
            (List.foldl (drawStep s.memory s.i (s.v (opcode / 256 % 16))
              (s.v (opcode / 16 % 16))) (s.display, 0)
              (drawPairs (opcode % 16))).1 q)
        = ((flipsOver s.memory s.i (s.v (opcode / 256 % 16))
            (s.v (opcode / 16 % 16)) (drawPairs (opcode % 16))).any fun q =>
              !s.display q) := by
      apply any_eq_of_agree
      intro q hq
      rw [drawLoop_display s.memory s.i (s.v (opcode / 256 % 16))
          (s.v (opcode / 16 % 16)) (drawPairs (opcode % 16)) s.display 0 q hnd]
      rw [if_pos hq]
    rw [hagree]
    rfl

/-- C8 counterexample: a one-byte sprite `0x80` drawn at `(0,0)` onto a
framebuffer whose target cell is already lit. The claim asserts the second
identical draw reports `VF = 1` because the sprite is nonempty; in fact
the first draw turns the lit cell off, so the second draw re-lights it and
reports `VF = 0`. -/
theorem dxyn_second_draw_vf_zero :
    ({ Chip8.new with
        i := 0x300
        memory := fun a => if a = 0x300 then 0x80 else Chip8.new.memory a
        display := fun p => p == 0 } : Chip8).memory 0x300 ≠ 0 ∧
      ((({ Chip8.new with
            i := 0x300
            memory := fun a => if a = 0x300 then 0x80 else Chip8.new.memory a
            display := fun p => p == 0 } : Chip8).op_dxyn 0xD011).bind
          (fun u => u.op_dxyn 0xD011)).map (fun t => t.v 15) = some 0 := by
  decide

/-- C8 witness: the same double draw on a machine whose framebuffer starts
cleared, instantiating the amended theorem at `opcode = 0xD011`. -/
theorem dxyn_double_draw_witness :
    ∃ t, (({ Chip8.new with
          i := 0x300
          memory := fun a => if a = 0x300 then 0x80 else Chip8.new.memory a } : Chip8).op_dxyn
            0xD011).bind (fun u => u.op_dxyn 0xD011) = some t ∧
      (∀ q, t.display q
        = ({ Chip8.new with
              i := 0x300
              memory := fun a => if a = 0x300 then 0x80 else Chip8.new.memory a } : Chip8).display
            q) ∧
      t.v 15 = (if (flipTargets
          ({ Chip8.new with
              i := 0x300
              memory := fun a => if a = 0x300 then 0x80 else Chip8.new.memory a } : Chip8).memory
          0x300 0 0 1).any
            (fun q => !({ Chip8.new with
                i := 0x300
                memory := fun a => if a = 0x300 then 0x80 else Chip8.new.memory a } : Chip8).display
              q) then 1 else 0) :=
  dxyn_double_draw
    { Chip8.new with
        i := 0x300
        memory := fun a => if a = 0x300 then 0x80 else Chip8.new.memory a }
    0xD011 (by decide) (by decide) (by decide)
